import Mathlib

/-!
Verification development for the cortex-rag backend (src/backend/main.py,
ingest.py, query_repo.py).  The orchestration layer is shallowly embedded:
Python strings become `List Char`, the persisted JSON registry and the
Chroma collection store become association lists, and the external effects
(git clone + document loading, embedding) become explicit oracle
parameters of type `Except`/`Bool`.
-/

/-- Python strings are modelled as lists of characters. -/
abbrev Str := List Char

/-- The single-quote character (used inside the f-string prompt of
`get_chat_engine` in main.py). -/
def squote : Char := Char.ofNat 39

/-! ## Association lists (Python `dict` semantics)

The registry file `repo_registry.json` is a JSON object, the Chroma store a
set of named collections, and `active_engines` a Python dict.  All are
modelled as association lists with unique-key insert/overwrite semantics. -/

/-- `lookupA d k` models `d[k]` / `k in d` on a Python dict. -/
def lookupA {α : Type} : List (Str × α) → Str → Option α
  | [], _ => none
  | (k0, v0) :: rest, k => if k0 = k then some v0 else lookupA rest k

/-- `insertA d k v` models `d[k] = v` on a Python dict: overwrite in place
if the key exists, append otherwise. -/
def insertA {α : Type} : List (Str × α) → Str → α → List (Str × α)
  | [], k, v => [(k, v)]
  | (k0, v0) :: rest, k, v =>
    if k0 = k then (k, v) :: rest else (k0, v0) :: insertA rest k v

/-- `eraseA d k` models `del d[k]` (guarded by `if k in d` in main.py). -/
def eraseA {α : Type} (d : List (Str × α)) (k : Str) : List (Str × α) :=
  d.filter (fun p => !(p.1 == k))

/-! ## The `.git` suffix handling of `get_context_by_url` (main.py) -/

/-- The four characters of the suffix `".git"`. -/
def dotGit : Str := ['.', 'g', 'i', 't']

/-- Whether four characters spell `".git"`. -/
def isDotGit4 (c1 c2 c3 c4 : Char) : Bool :=
  c1 == '.' && c2 == 'g' && c3 == 'i' && c4 == 't'

/-- Python `url.replace(".git", "")`: remove every (leftmost,
non-overlapping) occurrence of `".git"`. -/
def replaceGit : Str → Str
  | c1 :: c2 :: c3 :: c4 :: rest =>
    if isDotGit4 c1 c2 c3 c4 then replaceGit rest
    else c1 :: replaceGit (c2 :: c3 :: c4 :: rest)
  | l => l

/-- Whether `".git"` occurs anywhere in the string. -/
def hasGit : Str → Bool
  | c1 :: c2 :: c3 :: c4 :: rest =>
    isDotGit4 c1 c2 c3 c4 || hasGit (c2 :: c3 :: c4 :: rest)
  | _ => false

/-- Whether the string ends with `".git"`. -/
def endsDotGit (u : Str) : Bool :=
  decide (4 ≤ u.length) && decide (u.drop (u.length - 4) = dotGit)

/-- The string with one trailing `".git"` stripped (the third lookup form
named by the spec). -/
def stripDotGit (u : Str) : Str :=
  if endsDotGit u then u.take (u.length - 4) else u

/-- `begins p l` : `p` is a prefix of `l` (substring search helper). -/
def begins : Str → Str → Bool
  | [], _ => true
  | _ :: _, [] => false
  | p :: ps, c :: cs => p == c && begins ps cs

/-- `containsSub pat s` : `pat` occurs as a contiguous substring of `s`
(Python `pat in s`). -/
def containsSub (pat : Str) : Str → Bool
  | [] => pat.isEmpty
  | c :: cs => begins pat (c :: cs) || containsSub pat cs

/-! ## Context Registry (main.py: `save_registry`, `get_context_by_url`) -/

/-- A parsed registry file: `Except.error ()` models a file that exists but
cannot be parsed by `json.load` (or is absent), `Except.ok d` a parsed
table. -/
abbrev RegistryParse := Except Unit (List (Str × Str))

/-- main.py `save_registry(url, context_id)`: read the persisted table,
falling back to an empty dict when the file is missing or unparseable,
set `data[url] = context_id`, and write the table back.  The function
returns the table that is written to disk. -/
def save_registry (parsed : RegistryParse) (url context_id : Str) :
    List (Str × Str) :=
  let data := match parsed with
    | .ok d => d
    | .error _ => []
  insertA data url context_id

/-- main.py `get_context_by_url(url)`: try the exact URL, then the URL with
`".git"` appended, then the URL with every `".git"` occurrence removed
(Python `url.replace(".git", "")`). -/
def get_context_by_url (data : List (Str × Str)) (url : Str) : Option Str :=
  match lookupA data url with
  | some c => some c
  | none =>
    match lookupA data (url ++ dotGit) with
    | some c => some c
    | none => lookupA data (replaceGit url)

/-! ## Context-name sanitization (main.py `ingest_endpoint`) -/

/-- The character filter of
`"".join(c for c in request.repo_name if c.isalnum() or c in "_-")`
(ASCII reading of Python `str.isalnum`). -/
def keepChar (c : Char) : Bool := c.isAlphanum || c == '_' || c == '-'

/-- The sanitized context id computed by `ingest_endpoint`. -/
def sanitize (name : Str) : Str := name.filter keepChar

example : sanitize "my repo!".toList = "myrepo".toList := by decide
example : replaceGit "a.git.git".toList = "a".toList := by decide
example : replaceGit ".g.git".toList = ".g".toList := by decide
example : stripDotGit "a.git".toList = "a".toList := by decide
example : containsSub "git".toList "a.git".toList = true := by decide

/-! ## Documents and the Chroma collection store

ingest.py talks to Chroma through `PersistentClient`:
`get_or_create_collection` (via `get_chroma_vector_store`),
`delete_collection` (wrapped in `try/except: pass`), and
`VectorStoreIndex.from_documents` which embeds the documents and adds them
to the collection.  A collection is a named list of stored documents. -/

/-- A stored document chunk: its text plus the metadata keys that ingest.py
writes (`source_type`, the originating repo URL or filename, and the
`collection` tag). -/
structure Doc where
  text : Str
  source_type : Str
  origin : Str
  collection : Str
deriving DecidableEq, Repr

/-- The persistent Chroma store: named collections with their documents. -/
abbrev ChromaDB := List (Str × List Doc)

/-- Collection names present in the store (`db.list_collections()`). -/
def namesOf (db : ChromaDB) : List Str := db.map (fun p => p.1)

/-- `db.delete_collection(name)` wrapped in `try/except: pass`: removing a
collection that does not exist is a no-op, never an error. -/
def deleteCollection (db : ChromaDB) (name : Str) : ChromaDB :=
  db.filter (fun p => !(p.1 == name))

/-- `db.get_or_create_collection(name)` (ingest.py
`get_chroma_vector_store`): idempotent creation. -/
def getOrCreate (db : ChromaDB) (name : Str) : ChromaDB :=
  match lookupA db name with
  | some _ => db
  | none => db ++ [(name, [])]

/-- `VectorStoreIndex.from_documents(...)` on a collection-backed vector
store: append the embedded documents to the named collection. -/
def appendDocs (db : ChromaDB) (name : Str) (docs : List Doc) : ChromaDB :=
  db.map (fun p => if p.1 = name then (p.1, p.2 ++ docs) else p)

/-! ## Ingestion (ingest.py)

Clone + `SimpleDirectoryReader.load_data()` is an external effect; it is an
oracle of type `Except Str (List Str)` giving either the loaded document
texts or the raised error.  Embedding/storage failure inside
`from_documents` is a second oracle `embedOk : Bool`. -/

/-- The metadata tagging loop of `ingest_repository`. -/
def tagRepoDoc (repo_url collection_name : Str) (text : Str) : Doc :=
  { text := text
    source_type := "git_repo".toList
    origin := repo_url
    collection := collection_name }

/-- The metadata tagging loop of `ingest_single_file`. -/
def tagFileDoc (original_filename collection_name : Str) (text : Str) : Doc :=
  { text := text
    source_type := "file_upload".toList
    origin := original_filename
    collection := collection_name }

/-- ingest.py `ingest_repository(repo_url, collection_name)`: clone and load
(oracle `loadRes`; on error the exception is re-raised before any store
mutation), tag the documents, delete any pre-existing collection
(tolerantly), recreate it, then embed and store (oracle `embedOk`; on error
the exception is re-raised after the delete/recreate already happened).
Returns the outcome together with the store as left on disk. -/
def ingest_repository (loadRes : Except Str (List Str)) (embedOk : Bool)
    (db : ChromaDB) (repo_url collection_name : Str) :
    Except Str Unit × ChromaDB :=
  match loadRes with
  | .error e => (.error e, db)
  | .ok texts =>
    let docs := texts.map (tagRepoDoc repo_url collection_name)
    let db1 := getOrCreate (deleteCollection db collection_name) collection_name
    if embedOk then (.ok (), appendDocs db1 collection_name docs)
    else (.error "embedding failed".toList, db1)

/-- ingest.py `ingest_single_file(file_path, collection_name,
original_filename)`: load the file (oracle), tag, `get_or_create` the
collection (no deletion), then embed and store into it. -/
def ingest_single_file (loadRes : Except Str (List Str)) (embedOk : Bool)
    (db : ChromaDB) (collection_name original_filename : Str) :
    Except Str Unit × ChromaDB :=
  match loadRes with
  | .error e => (.error e, db)
  | .ok texts =>
    let docs := texts.map (tagFileDoc original_filename collection_name)
    let db1 := getOrCreate db collection_name
    if embedOk then (.ok (), appendDocs db1 collection_name docs)
    else (.error "embedding failed".toList, db1)

/-! ## Chat engines (main.py `get_chat_engine`) -/

/-- The f-string system prompt of main.py `get_chat_engine`:
`"You are a specialized assistant for the (squote){context_id}(squote) codebase."` -/
def main_system_prompt (context_id : Str) : Str :=
  "You are a specialized assistant for the ".toList ++ [squote] ++
    context_id ++ [squote] ++ " codebase.".toList

/-- The fixed system prompt of query_repo.py `start_chat` (the standalone
CLI chat, not the API's lazy loader). -/
def query_repo_system_prompt : Str :=
  "You are a specialized code assistant. You have access to a specific codebase. Always answer questions based on the provided context from the repository. If the answer isn".toList ++
    [squote] ++ "t in the code, say so.".toList

/-- A conversational session as configured by main.py `get_chat_engine`. -/
structure Engine where
  context : Str
  chat_mode : Str
  system_prompt : Str
deriving DecidableEq, Repr

/-- The engine that `get_chat_engine` builds for a context id. -/
def mkEngine (context_id : Str) : Engine :=
  { context := context_id
    chat_mode := "context".toList
    system_prompt := main_system_prompt context_id }

/-- The mutable process state of main.py: the persisted registry table, the
persistent Chroma store, and the in-memory `active_engines` cache. -/
structure ApiState where
  registry : List (Str × Str)
  db : ChromaDB
  engines : List (Str × Engine)
deriving DecidableEq, Repr

/-- main.py `get_chat_engine(context_id)`: return the cached engine if
present; otherwise `db.get_collection(context_id)` — on success build,
cache and return an engine, on failure (collection absent) return `None`. -/
def get_chat_engine (st : ApiState) (context_id : Str) :
    Option Engine × ApiState :=
  match lookupA st.engines context_id with
  | some e => (some e, st)
  | none =>
    match lookupA st.db context_id with
    | some _ =>
      (some (mkEngine context_id),
       { st with engines := insertA st.engines context_id (mkEngine context_id) })
    | none => (none, st)

/-! ## HTTP endpoints (main.py) -/

/-- Response of `POST /ingest`: success JSON or a raised `HTTPException`. -/
inductive IngestResp
  | success (context_id : Str)
  | httpError (status_code : Nat) (detail : Str)
deriving DecidableEq, Repr

/-- Whether the two ingestion oracles describe a fully successful run. -/
def exceptOk (r : Except Str (List Str)) : Bool :=
  match r with
  | .ok _ => true
  | .error _ => false

/-- main.py `ingest_endpoint`: sanitize `repo_name`, run
`ingest_repository`; only on success save the registry mapping and evict
the cached engine; any exception becomes a 500 response and leaves the
registry untouched. -/
def ingest_endpoint (loadRes : Except Str (List Str)) (embedOk : Bool)
    (st : ApiState) (repo_url repo_name : Str) : IngestResp × ApiState :=
  let safe_name := sanitize repo_name
  match ingest_repository loadRes embedOk st.db repo_url safe_name with
  | (.ok _, db1) =>
    (.success safe_name,
     { registry := save_registry (.ok st.registry) repo_url safe_name
       db := db1
       engines := eraseA st.engines safe_name })
  | (.error e, db1) => (.httpError 500 e, { st with db := db1 })

/-- main.py `upload_file_endpoint` (`POST /ingest/file`): run
`ingest_single_file` into the named context; on success evict the cached
engine; any exception becomes a 500 response. -/
def upload_file_endpoint (loadRes : Except Str (List Str)) (embedOk : Bool)
    (st : ApiState) (context_id : Str) (original_filename : Str) :
    IngestResp × ApiState :=
  match ingest_single_file loadRes embedOk st.db context_id original_filename with
  | (.ok _, db1) =>
    (.success context_id, { st with db := db1, engines := eraseA st.engines context_id })
  | (.error e, db1) => (.httpError 500 e, { st with db := db1 })

/-- Response of `POST /chat`. -/
inductive ChatResp
  | ok (response : Str)
  | notFound (detail : Str)
  | serverError (detail : Str)
deriving DecidableEq, Repr

/-- main.py `chat_endpoint`: look up the engine via `get_chat_engine`;
`None` becomes `HTTPException(404, "Context not found")`; otherwise
`engine.achat(message)` runs (oracle `chatRes`), with exceptions surfaced
as a 500 response. -/
def chat_endpoint (chatRes : Except Str Str) (st : ApiState)
    (context_id : Str) : ChatResp × ApiState :=
  match get_chat_engine st context_id with
  | (none, st1) => (.notFound "Context not found".toList, st1)
  | (some _, st1) =>
    match chatRes with
    | .ok answer => (.ok answer, st1)
    | .error e => (.serverError e, st1)

/-- A parsed `POST /webhook/github` payload: JSON parsing failed, JSON with
no `repository` key, or a push payload carrying `repository.html_url`. -/
inductive Payload
  | invalid (detail : Str)
  | noRepo
  | push (html_url : Str)
deriving DecidableEq, Repr

/-- Response of `POST /webhook/github`. -/
inductive WebhookResp
  | ignored (reason : Str)
  | accepted (context : Str)
  | errorStatus (detail : Str)
deriving DecidableEq, Repr

/-- main.py `github_webhook`: parse the payload, look the repo URL up in
the registry, and either ignore the event or schedule
`reingest_background(url, context)`.  The second component is the list of
background tasks scheduled by the handler. -/
def github_webhook (st : ApiState) (payload : Payload) :
    WebhookResp × List (Str × Str) :=
  match payload with
  | .invalid e => (.errorStatus e, [])
  | .noRepo => (.ignored "No repo data".toList, [])
  | .push repo_url =>
    match get_context_by_url st.registry repo_url with
    | none =>
      (.ignored ("Repo ".toList ++ repo_url ++ " not tracked".toList), [])
    | some context_id => (.accepted context_id, [(repo_url, context_id)])

/-- The number of collections with a given name in the store. -/
def collCount (db : ChromaDB) (name : Str) : Nat :=
  (db.filter (fun p => p.1 == name)).length

/-- Modelled from the spec: the spec requires each session's system prompt
to identify the context by name and to instruct the assistant to answer
only from retrieved context, acknowledging when information is absent; the
instruction wording is the one the repository itself uses in the
query_repo.py `start_chat` prompt. -/
def spec_prompt_requirement (context_id prompt : Str) : Bool :=
  containsSub context_id prompt &&
  containsSub "Always answer questions based on the provided context".toList prompt &&
  containsSub ("If the answer isn".toList ++ [squote] ++ "t in the code, say so.".toList) prompt

/-! ## Helper lemmas: `.git` handling -/

theorem hasGit_cons4 (c1 c2 c3 c4 : Char) (rest : Str) :
    hasGit (c1 :: c2 :: c3 :: c4 :: rest) =
      (isDotGit4 c1 c2 c3 c4 || hasGit (c2 :: c3 :: c4 :: rest)) := rfl

theorem replaceGit_cons4 (c1 c2 c3 c4 : Char) (rest : Str) :
    replaceGit (c1 :: c2 :: c3 :: c4 :: rest) =
      if isDotGit4 c1 c2 c3 c4 then replaceGit rest
      else c1 :: replaceGit (c2 :: c3 :: c4 :: rest) := rfl

/-- On a string with no `".git"` occurrence, `replace(".git", "")` is the
identity. -/
theorem replaceGit_id : ∀ (u : Str), hasGit u = false → replaceGit u = u
  | [], _ => rfl
  | [_], _ => rfl
  | [_, _], _ => rfl
  | [_, _, _], _ => rfl
  | c1 :: c2 :: c3 :: c4 :: rest, h => by
    rw [hasGit_cons4, Bool.or_eq_false_iff] at h
    rw [replaceGit_cons4, if_neg (by simp [h.1]),
      replaceGit_id (c2 :: c3 :: c4 :: rest) h.2]

/-- Appending `".git"` to any string yields a string containing `".git"`. -/
theorem hasGit_append_dotGit : ∀ (w : Str), hasGit (w ++ dotGit) = true
  | [] => by decide
  | [c1] => by
    rw [show ([c1] ++ dotGit) = c1 :: '.' :: 'g' :: 'i' :: 't' :: [] from rfl,
      hasGit_cons4,
      show hasGit ('.' :: 'g' :: 'i' :: 't' :: []) = true from by decide]
    simp
  | [c1, c2] => by
    rw [show ([c1, c2] ++ dotGit) = c1 :: c2 :: '.' :: 'g' :: 'i' :: 't' :: [] from rfl,
      hasGit_cons4,
      show (c2 :: '.' :: 'g' :: 'i' :: 't' :: []) = [c2] ++ dotGit from rfl,
      hasGit_append_dotGit [c2]]
    simp
  | [c1, c2, c3] => by
    rw [show ([c1, c2, c3] ++ dotGit) = c1 :: c2 :: c3 :: '.' :: 'g' :: 'i' :: 't' :: [] from rfl,
      hasGit_cons4,
      show (c2 :: c3 :: '.' :: 'g' :: 'i' :: 't' :: []) = [c2, c3] ++ dotGit from rfl,
      hasGit_append_dotGit [c2, c3]]
    simp
  | c1 :: c2 :: c3 :: c4 :: rest => by
    rw [show ((c1 :: c2 :: c3 :: c4 :: rest) ++ dotGit) =
          c1 :: c2 :: c3 :: c4 :: (rest ++ dotGit) from rfl,
      hasGit_cons4,
      show (c2 :: c3 :: c4 :: (rest ++ dotGit)) = (c2 :: c3 :: c4 :: rest) ++ dotGit from rfl,
      hasGit_append_dotGit (c2 :: c3 :: c4 :: rest)]
    simp

/-- On a string with no `".git"` occurrence, appending `".git"` and then
running `replace(".git", "")` recovers the original string. -/
theorem replaceGit_append_dotGit :
    ∀ (u : Str), hasGit u = false → replaceGit (u ++ dotGit) = u
  | [], _ => by decide
  | [c1], _ => by
    rw [show ([c1] ++ dotGit) = c1 :: '.' :: 'g' :: 'i' :: 't' :: [] from rfl,
      replaceGit_cons4, if_neg (by simp [isDotGit4]),
      show ('.' :: 'g' :: 'i' :: 't' :: []) = dotGit from rfl,
      show replaceGit dotGit = [] from by decide]
  | [c1, c2], _ => by
    rw [show ([c1, c2] ++ dotGit) = c1 :: c2 :: '.' :: 'g' :: 'i' :: 't' :: [] from rfl,
      replaceGit_cons4, if_neg (by simp [isDotGit4]),
      show (c2 :: '.' :: 'g' :: 'i' :: 't' :: []) = [c2] ++ dotGit from rfl,
      replaceGit_append_dotGit [c2] rfl]
  | [c1, c2, c3], _ => by
    rw [show ([c1, c2, c3] ++ dotGit) = c1 :: c2 :: c3 :: '.' :: 'g' :: 'i' :: 't' :: [] from rfl,
      replaceGit_cons4, if_neg (by simp [isDotGit4]),
      show (c2 :: c3 :: '.' :: 'g' :: 'i' :: 't' :: []) = [c2, c3] ++ dotGit from rfl,
      replaceGit_append_dotGit [c2, c3] rfl]
  | c1 :: c2 :: c3 :: c4 :: rest, h => by
    rw [hasGit_cons4, Bool.or_eq_false_iff] at h
    rw [show ((c1 :: c2 :: c3 :: c4 :: rest) ++ dotGit) =
          c1 :: c2 :: c3 :: c4 :: (rest ++ dotGit) from rfl,
      replaceGit_cons4, if_neg (by simp [h.1]),
      show (c2 :: c3 :: c4 :: (rest ++ dotGit)) = (c2 :: c3 :: c4 :: rest) ++ dotGit from rfl,
      replaceGit_append_dotGit (c2 :: c3 :: c4 :: rest) h.2]

/-- A string ending with `".git"` splits off that suffix. -/
theorem endsDotGit_decomp (u : Str) (h : endsDotGit u = true) :
    u = u.take (u.length - 4) ++ dotGit := by
  unfold endsDotGit at h
  rw [Bool.and_eq_true, decide_eq_true_eq, decide_eq_true_eq] at h
  conv_lhs => rw [← List.take_append_drop (u.length - 4) u]
  rw [h.2]

/-- On a string with no `".git"` occurrence, stripping a trailing `".git"`
is the identity. -/
theorem stripDotGit_id (u : Str) (h : hasGit u = false) : stripDotGit u = u := by
  unfold stripDotGit
  cases he : endsDotGit u with
  | false => simp
  | true =>
    exfalso
    have hd := endsDotGit_decomp u he
    have hg := hasGit_append_dotGit (u.take (u.length - 4))
    rw [← hd, h] at hg
    exact Bool.false_ne_true hg

theorem self_ne_append_dotGit (u : Str) : ¬ (u = u ++ dotGit) := by
  intro h
  have h2 := congrArg List.length h
  rw [List.length_append] at h2
  simp [dotGit] at h2

theorem append_dotGit_ne_self (u : Str) : ¬ (u ++ dotGit = u) := by
  intro h
  exact self_ne_append_dotGit u h.symm

theorem self_ne_append_dotGit2 (u : Str) : ¬ (u = u ++ dotGit ++ dotGit) := by
  intro h
  have h2 := congrArg List.length h
  rw [List.length_append, List.length_append] at h2
  simp only [dotGit, List.length_cons, List.length_nil] at h2
  omega

/-! ## Helper lemmas: association lists and the collection store -/

theorem lookupA_mem {α : Type} :
    ∀ {d : List (Str × α)} {k : Str} {v : α},
      lookupA d k = some v → (k, v) ∈ d
  | [], _, _, h => by simp [lookupA] at h
  | (k0, v0) :: rest, k, v, h => by
    by_cases hk : k0 = k
    · subst hk
      simp [lookupA] at h
      subst h
      exact List.mem_cons_self _ _
    · rw [lookupA, if_neg hk] at h
      exact List.mem_cons_of_mem _ (lookupA_mem h)

theorem lookupA_append {α : Type} :
    ∀ (d1 d2 : List (Str × α)) (k : Str),
      lookupA (d1 ++ d2) k =
        match lookupA d1 k with
        | some v => some v
        | none => lookupA d2 k
  | [], d2, k => rfl
  | (k0, v0) :: rest, d2, k => by
    by_cases hk : k0 = k <;>
      simp [lookupA, hk, lookupA_append rest d2 k]

/-- Python-dict insert is idempotent: writing the same key/value twice
leaves the table as after the first write. -/
theorem insertA_idem {α : Type} :
    ∀ (d : List (Str × α)) (k : Str) (v : α),
      insertA (insertA d k v) k v = insertA d k v
  | [], k, v => by simp [insertA]
  | (k0, v0) :: rest, k, v => by
    by_cases h : k0 = k
    · simp [insertA, h]
    · simp [insertA, h, insertA_idem rest k v]

theorem lookupA_deleteCollection (db : ChromaDB) (n : Str) :
    lookupA (deleteCollection db n) n = none := by
  induction db with
  | nil => rfl
  | cons p rest ih =>
    by_cases h : p.1 = n
    · simpa [deleteCollection, List.filter_cons, h, lookupA] using ih
    · simpa [deleteCollection, List.filter_cons, h, lookupA] using ih

/-- `delete_collection` on an absent collection is a no-op (the
`try/except: pass` success path). -/
theorem deleteCollection_absent :
    ∀ (db : ChromaDB) (n : Str), lookupA db n = none → deleteCollection db n = db
  | [], _, _ => rfl
  | p :: rest, n, h => by
    by_cases hp : p.1 = n
    · rw [show p = (p.1, p.2) from rfl, lookupA, if_pos hp] at h
      simp at h
    · rw [show p = (p.1, p.2) from rfl, lookupA, if_neg hp] at h
      simp [deleteCollection, List.filter_cons, hp]
      simpa [deleteCollection] using deleteCollection_absent rest n h

theorem collCount_deleteCollection (db : ChromaDB) (n : Str) :
    collCount (deleteCollection db n) n = 0 := by
  induction db with
  | nil => rfl
  | cons p rest ih =>
    by_cases h : p.1 = n
    · have hdel : deleteCollection (p :: rest) n = deleteCollection rest n := by
        simp [deleteCollection, List.filter_cons, h]
      rw [hdel]; exact ih
    · have hdel : deleteCollection (p :: rest) n = p :: deleteCollection rest n := by
        simp [deleteCollection, List.filter_cons, h]
      rw [hdel]
      simpa [collCount, List.filter_cons, h] using ih

theorem collCount_append (d1 d2 : ChromaDB) (n : Str) :
    collCount (d1 ++ d2) n = collCount d1 n + collCount d2 n := by
  simp [collCount, List.filter_append]

theorem filter_key_map_length (f : Str × List Doc → Str × List Doc)
    (hf : ∀ p, (f p).1 = p.1) (m : Str) :
    ∀ l : ChromaDB,
      ((l.map f).filter (fun p => p.1 == m)).length =
        (l.filter (fun p => p.1 == m)).length
  | [] => rfl
  | p :: rest => by
    rw [List.map_cons, List.filter_cons, List.filter_cons, hf p]
    by_cases h : p.1 = m
    · simp [h, filter_key_map_length f hf m rest]
    · simp [h, filter_key_map_length f hf m rest]

theorem collCount_appendDocs (db : ChromaDB) (n m : Str) (docs : List Doc) :
    collCount (appendDocs db n docs) m = collCount db m := by
  unfold collCount appendDocs
  apply filter_key_map_length
  intro p
  by_cases h : p.1 = n <;> simp [h]

/-- After delete + get-or-create + store, the store holds exactly one
collection with the ingested name. -/
theorem collCount_rebuild (db : ChromaDB) (n : Str) (docs : List Doc) :
    collCount (appendDocs (getOrCreate (deleteCollection db n) n) n docs) n = 1 := by
  rw [collCount_appendDocs]
  unfold getOrCreate
  rw [lookupA_deleteCollection]
  rw [collCount_append, collCount_deleteCollection]
  simp [collCount, List.filter_cons]

theorem namesOf_appendDocs (db : ChromaDB) (n : Str) (docs : List Doc) :
    namesOf (appendDocs db n docs) = namesOf db := by
  induction db with
  | nil => rfl
  | cons p rest ih =>
    by_cases h : p.1 = n <;>
      simp [namesOf, appendDocs, h] at ih ⊢ <;>
      assumption

theorem lookupA_appendDocs (db : ChromaDB) (n : Str) (docs : List Doc) (k : Str) :
    lookupA (appendDocs db n docs) k =
      (lookupA db k).map (fun d => if k = n then d ++ docs else d) := by
  induction db with
  | nil => rfl
  | cons p rest ih =>
    obtain ⟨k0, v0⟩ := p
    show lookupA ((if k0 = n then (k0, v0 ++ docs) else (k0, v0)) :: appendDocs rest n docs) k = _
    by_cases hn : k0 = n
    · rw [if_pos hn]
      by_cases hk : k0 = k
      · subst hn; subst hk
        simp [lookupA]
      · simp only [lookupA, if_neg hk, ih]
    · rw [if_neg hn]
      by_cases hk : k0 = k
      · subst hk
        simp [lookupA, hn]
      · simp only [lookupA, if_neg hk, ih]

/-! ## Helper lemmas: substring search -/

theorem begins_append : ∀ (p t : Str), begins p (p ++ t) = true
  | [], _ => rfl
  | p :: ps, t => by simp [begins, begins_append ps t]

theorem containsSub_of_begins :
    ∀ (pat s : Str), begins pat s = true → containsSub pat s = true
  | pat, [], h => by
    cases pat with
    | nil => rfl
    | cons p ps => simp [begins] at h
  | pat, c :: cs, h => by simp [containsSub, h]

theorem containsSub_append_left :
    ∀ (x : Str) (pat y : Str),
      containsSub pat y = true → containsSub pat (x ++ y) = true
  | [], _, _, h => h
  | c :: cs, pat, y, h => by
    simp [containsSub, containsSub_append_left cs pat y h]

/-- A pattern occurs in any string it is spliced into. -/
theorem containsSub_embed (pat a b : Str) :
    containsSub pat (a ++ (pat ++ b)) = true :=
  containsSub_append_left a pat (pat ++ b)
    (containsSub_of_begins pat (pat ++ b) (begins_append pat b))

/-! ## Further store lemmas -/

theorem namesOf_append (d1 d2 : ChromaDB) :
    namesOf (d1 ++ d2) = namesOf d1 ++ namesOf d2 := by
  simp [namesOf]

theorem lookupA_getOrCreate_absent (db : ChromaDB) (n : Str)
    (h : lookupA db n = none) :
    lookupA (getOrCreate db n) n = some [] := by
  unfold getOrCreate
  rw [h, lookupA_append, h]
  simp [lookupA]

theorem lookupA_getOrCreate_found (db : ChromaDB) (n k : Str) (v : List Doc)
    (h : lookupA db k = some v) :
    lookupA (getOrCreate db n) k = some v := by
  unfold getOrCreate
  cases hn : lookupA db n with
  | some _ => exact h
  | none => rw [lookupA_append, h]

/-- Looking up the freshly rebuilt collection returns exactly the newly
stored documents. -/
theorem lookupA_rebuild (db : ChromaDB) (n : Str) (docs : List Doc) :
    lookupA (appendDocs (getOrCreate (deleteCollection db n) n) n docs) n =
      some docs := by
  rw [lookupA_appendDocs,
    lookupA_getOrCreate_absent _ _ (lookupA_deleteCollection db n)]
  simp

theorem sanitize_nil_of_all_dropped :
    ∀ (name : Str), (∀ c ∈ name, keepChar c = false) → sanitize name = []
  | [], _ => rfl
  | c :: cs, h => by
    have hc := h c (List.mem_cons_self c cs)
    have ih := sanitize_nil_of_all_dropped cs
      (fun x hx => h x (List.mem_cons_of_mem c hx))
    simp [sanitize, List.filter_cons, hc]
    simpa [sanitize] using ih

/-! ## Claims -/

/-- Claim C1, amended: for every URL `u` in which `".git"` does not occur
as a substring, once the registry mapping has been saved under any one of
the three forms (`u`, `u ++ ".git"`, `u` with a trailing `".git"`
stripped), lookup of each of the three forms returns the saved context id.
(The original claim fails for URLs containing `".git"`, because the third
lookup attempt removes every `".git"` occurrence, not a trailing one; see
the counterexample.) -/
theorem C1_lookup_three_forms (u c : Str) (hu : hasGit u = false)
    (s l : Str) (hs : s ∈ [u, u ++ dotGit, stripDotGit u])
    (hl : l ∈ [u, u ++ dotGit, stripDotGit u]) :
    get_context_by_url (save_registry (.ok []) s c) l = some c := by
  rw [stripDotGit_id u hu] at hs hl
  simp only [List.mem_cons, List.not_mem_nil, or_false] at hs hl
  have hrep := replaceGit_append_dotGit u hu
  simp only [dotGit] at hrep
  rcases hs with hs | hs | hs <;> rcases hl with hl | hl | hl <;> subst hs <;> subst hl <;>
    simp [get_context_by_url, save_registry, insertA, lookupA, dotGit, hrep]

/-- Witness for C1: saving `"repo.git"` makes lookup of `"repo"` succeed. -/
theorem C1_witness :
    get_context_by_url (save_registry (.ok []) ("repo".toList ++ dotGit) "ctx".toList)
      "repo".toList = some "ctx".toList :=
  C1_lookup_three_forms "repo".toList "ctx".toList (by decide)
    ("repo".toList ++ dotGit) "repo".toList (by decide) (by decide)

/-- Counterexample to C1 as stated: for the URL `"a.git"` (which ends in
`".git"`), saving under the exact form and looking up the
`".git"`-appended form `"a.git.git"` returns nothing, because
`url.replace(".git", "")` strips both occurrences, producing `"a"`,
which was never saved. -/
theorem C1_counterexample :
    ('a' :: dotGit) ∈
      [('a' :: dotGit), ('a' :: dotGit) ++ dotGit, stripDotGit ('a' :: dotGit)] ∧
    (('a' :: dotGit) ++ dotGit) ∈
      [('a' :: dotGit), ('a' :: dotGit) ++ dotGit, stripDotGit ('a' :: dotGit)] ∧
    get_context_by_url (save_registry (.ok []) ('a' :: dotGit) "ctx".toList)
      (('a' :: dotGit) ++ dotGit) = none := by decide

/-- Claim C3: the registry is written only when `ingest_repository` fully
succeeds; when cloning/loading or embedding raises, the persisted registry
is exactly the one from before the request. -/
theorem C3_registry_only_after_success (loadRes : Except Str (List Str))
    (embedOk : Bool) (st : ApiState) (repo_url repo_name : Str) :
    (ingest_endpoint loadRes embedOk st repo_url repo_name).2.registry =
      if exceptOk loadRes && embedOk then
        save_registry (.ok st.registry) repo_url (sanitize repo_name)
      else st.registry := by
  cases loadRes <;> cases embedOk <;>
    simp [ingest_endpoint, ingest_repository, exceptOk]

/-- Claim C5: the sanitized context id is the input filtered to
alphanumeric, `_` and `-` characters (in order), and sanitization is
idempotent. -/
theorem C5_sanitize_filter_idempotent (name : Str) :
    sanitize name = name.filter keepChar ∧
    sanitize (sanitize name) = sanitize name := by
  refine ⟨rfl, ?_⟩
  simp [sanitize, List.filter_filter]

/-- Claim C8: a webhook push whose repository URL resolves to no registry
entry (under all three lookup forms tried by `get_context_by_url`) is
answered with an "ignored" status and schedules no background task. -/
theorem C8_webhook_untracked_ignored (st : ApiState) (url : Str)
    (h : get_context_by_url st.registry url = none) :
    github_webhook st (.push url) =
      (.ignored ("Repo ".toList ++ url ++ " not tracked".toList), []) := by
  simp [github_webhook, h]

/-- Witness for C8 on the empty registry. -/
theorem C8_witness :
    github_webhook ⟨[], [], []⟩ (.push "u".toList) =
      (.ignored ("Repo ".toList ++ "u".toList ++ " not tracked".toList), []) :=
  C8_webhook_untracked_ignored ⟨[], [], []⟩ "u".toList (by decide)

/-- Claim C10: when the persisted registry file cannot be parsed,
`save_registry` starts from an empty table, so the file written afterwards
holds exactly the new mapping and every previously persisted entry is
gone. -/
theorem C10_unparseable_registry_reset (url cid u : Str) (hu : u ≠ url) :
    save_registry (.error ()) url cid = [(url, cid)] ∧
    lookupA (save_registry (.error ()) url cid) u = none := by
  refine ⟨rfl, ?_⟩
  simp [save_registry, insertA, lookupA, Ne.symm hu]

/-- Witness for C10. -/
theorem C10_witness :
    save_registry (.error ()) "u1".toList "c1".toList = [("u1".toList, "c1".toList)] ∧
    lookupA (save_registry (.error ()) "u1".toList "c1".toList) "u2".toList = none :=
  C10_unparseable_registry_reset "u1".toList "c1".toList "u2".toList (by decide)

/-- Claim C2, amended: the session built by the lazy loader
`get_chat_engine` is configured with the fixed system prompt
`"You are a specialized assistant for the (squote){context_id}(squote) codebase."`,
which identifies the context by name; the instruction to answer only from
retrieved context and acknowledge absent information is not part of this
prompt (that wording appears only in the standalone query_repo.py prompt;
see the counterexample). -/
theorem C2_prompt_names_context (st : ApiState) (cid : Str)
    (hcache : lookupA st.engines cid = none)
    (hdb : (lookupA st.db cid).isSome = true) :
    (get_chat_engine st cid).1 = some (mkEngine cid) ∧
    (mkEngine cid).system_prompt = main_system_prompt cid ∧
    containsSub cid (mkEngine cid).system_prompt = true := by
  refine ⟨?_, rfl, ?_⟩
  · cases hfound : lookupA st.db cid with
    | none => rw [hfound] at hdb; simp at hdb
    | some docs => simp [get_chat_engine, hcache, hfound]
  · show containsSub cid (main_system_prompt cid) = true
    have hsplit : main_system_prompt cid =
        ("You are a specialized assistant for the ".toList ++ [squote]) ++
          (cid ++ ([squote] ++ " codebase.".toList)) := by
      simp [main_system_prompt, List.append_assoc]
    rw [hsplit]
    exact containsSub_embed cid _ _

/-- Witness for C2 on a one-collection store. -/
theorem C2_witness :
    (get_chat_engine ⟨[], [("d".toList, [])], []⟩ "d".toList).1 =
      some (mkEngine "d".toList) ∧
    (mkEngine "d".toList).system_prompt = main_system_prompt "d".toList ∧
    containsSub "d".toList (mkEngine "d".toList).system_prompt = true :=
  C2_prompt_names_context ⟨[], [("d".toList, [])], []⟩ "d".toList
    (by decide) (by decide)

/-- Counterexample to C2 as stated: the session that `get_chat_engine`
builds for context id `"demo"` carries a prompt that names the context but
contains neither the answer-only-from-context instruction nor the
acknowledge-absence instruction. -/
theorem C2_counterexample :
    spec_prompt_requirement "demo".toList
      (mkEngine "demo".toList).system_prompt = false := by decide

/-- Claim C4: re-ingesting the same URL under the same name leaves exactly
one collection for the sanitized context id, leaves the registry exactly
as after the first ingest, and deleting a non-existent collection is a
no-op success. -/
theorem C4_reingest_idempotent (st : ApiState) (url name : Str)
    (l1 l2 : Except Str (List Str)) (e1 e2 : Bool)
    (h1 : exceptOk l1 && e1 = true) (h2 : exceptOk l2 && e2 = true)
    (db0 : ChromaDB) (n0 : Str) (hn0 : lookupA db0 n0 = none) :
    collCount
        ((ingest_endpoint l2 e2 (ingest_endpoint l1 e1 st url name).2 url name).2.db)
        (sanitize name) = 1 ∧
    (ingest_endpoint l2 e2 (ingest_endpoint l1 e1 st url name).2 url name).2.registry =
      (ingest_endpoint l1 e1 st url name).2.registry ∧
    deleteCollection db0 n0 = db0 := by
  obtain ⟨texts1, rfl⟩ : ∃ t, l1 = .ok t := by
    cases l1 with
    | ok t => exact ⟨t, rfl⟩
    | error e => simp [exceptOk] at h1
  obtain ⟨texts2, rfl⟩ : ∃ t, l2 = .ok t := by
    cases l2 with
    | ok t => exact ⟨t, rfl⟩
    | error e => simp [exceptOk] at h2
  have he1 : e1 = true := by simpa [exceptOk] using h1
  have he2 : e2 = true := by simpa [exceptOk] using h2
  subst he1; subst he2
  refine ⟨?_, ?_, deleteCollection_absent db0 n0 hn0⟩
  · simp only [ingest_endpoint, ingest_repository, if_true]
    exact collCount_rebuild _ _ _
  · simp only [ingest_endpoint, ingest_repository, if_true, save_registry]
    exact insertA_idem st.registry url (sanitize name)

/-- Witness for C4 on concrete inputs. -/
theorem C4_witness :
    collCount
        ((ingest_endpoint (.ok ["t".toList]) true
          (ingest_endpoint (.ok ["t".toList]) true ⟨[], [], []⟩ "u".toList "n".toList).2
          "u".toList "n".toList).2.db)
        (sanitize "n".toList) = 1 ∧
    (ingest_endpoint (.ok ["t".toList]) true
        (ingest_endpoint (.ok ["t".toList]) true ⟨[], [], []⟩ "u".toList "n".toList).2
        "u".toList "n".toList).2.registry =
      (ingest_endpoint (.ok ["t".toList]) true ⟨[], [], []⟩ "u".toList "n".toList).2.registry ∧
    deleteCollection [] "x".toList = [] :=
  C4_reingest_idempotent ⟨[], [], []⟩ "u".toList "n".toList
    (.ok ["t".toList]) (.ok ["t".toList]) true true
    (by decide) (by decide) [] "x".toList (by decide)

/-- Claim C6: single-file upload creates the context's collection when it
is absent, leaves the set of collections unchanged when it exists, and in
every case each previously stored document list is preserved as a prefix —
nothing is deleted or replaced, and collections other than the target gain
nothing. -/
theorem C6_upload_appends_only (texts : List Str) (db : ChromaDB)
    (cid fn : Str) :
    (lookupA db cid = none →
      namesOf (ingest_single_file (.ok texts) true db cid fn).2 =
        namesOf db ++ [cid]) ∧
    ((lookupA db cid).isSome = true →
      namesOf (ingest_single_file (.ok texts) true db cid fn).2 = namesOf db) ∧
    (∀ name docs0, lookupA db name = some docs0 →
      lookupA (ingest_single_file (.ok texts) true db cid fn).2 name =
        some (docs0 ++
          (if name = cid then texts.map (tagFileDoc fn cid) else []))) := by
  have hdb2 : (ingest_single_file (.ok texts) true db cid fn).2 =
      appendDocs (getOrCreate db cid) cid (texts.map (tagFileDoc fn cid)) := rfl
  refine ⟨?_, ?_, ?_⟩
  · intro h
    rw [hdb2, namesOf_appendDocs]
    unfold getOrCreate
    rw [h, namesOf_append]
    simp [namesOf]
  · intro h
    rw [hdb2, namesOf_appendDocs]
    unfold getOrCreate
    cases hn : lookupA db cid with
    | some _ => rfl
    | none => rw [hn] at h; simp at h
  · intro name docs0 h
    rw [hdb2, lookupA_appendDocs, lookupA_getOrCreate_found db cid name docs0 h]
    by_cases hname : name = cid
    · simp [hname]
    · simp [hname]

/-- Witness for C6: uploading into an absent context creates it. -/
theorem C6_witness :
    namesOf (ingest_single_file (.ok ["t".toList]) true [] "c".toList "f".toList).2 =
      namesOf ([] : ChromaDB) ++ ["c".toList] :=
  (C6_upload_appends_only ["t".toList] [] "c".toList "f".toList).1 (by decide)

/-- Claim C7: a chat request for a context id with no collection in the
store (in any state reachable by the API, where every cached engine's
context has a collection) yields the structured 404 `"Context not found"`
response, and `get_chat_engine` itself returns "not found" (`none`) rather
than raising. -/
theorem C7_chat_missing_context_not_found (chatRes : Except Str Str)
    (st : ApiState) (cid : Str)
    (hinv : ∀ p ∈ st.engines, (lookupA st.db p.1).isSome = true)
    (habs : lookupA st.db cid = none) :
    get_chat_engine st cid = (none, st) ∧
    chat_endpoint chatRes st cid = (.notFound "Context not found".toList, st) := by
  have hc : lookupA st.engines cid = none := by
    cases hl : lookupA st.engines cid with
    | none => rfl
    | some e =>
      have hmem := lookupA_mem hl
      have hsome := hinv _ hmem
      rw [habs] at hsome
      simp at hsome
  refine ⟨?_, ?_⟩
  · simp [get_chat_engine, hc, habs]
  · simp [chat_endpoint, get_chat_engine, hc, habs]

/-- Witness for C7 on the empty state. -/
theorem C7_witness :
    get_chat_engine ⟨[], [], []⟩ "x".toList = (none, ⟨[], [], []⟩) ∧
    chat_endpoint (.ok "hi".toList) ⟨[], [], []⟩ "x".toList =
      (.notFound "Context not found".toList, ⟨[], [], []⟩) :=
  C7_chat_missing_context_not_found (.ok "hi".toList) ⟨[], [], []⟩ "x".toList
    (by simp) (by decide)

/-- Claim C9: a repo name with no alphanumeric, `_` or `-` characters
sanitizes to the empty string, and the ingest endpoint proceeds with that
empty context id — it reports success for context id `""` and the store
ends up with a collection named by the empty string holding the ingested
documents. -/
theorem C9_empty_context_id_proceeds (name : Str)
    (hname : ∀ c ∈ name, keepChar c = false)
    (texts : List Str) (st : ApiState) (url : Str) :
    sanitize name = [] ∧
    (ingest_endpoint (.ok texts) true st url name).1 = .success [] ∧
    lookupA (ingest_endpoint (.ok texts) true st url name).2.db [] =
      some (texts.map (tagRepoDoc url [])) := by
  have hsan : sanitize name = [] := sanitize_nil_of_all_dropped name hname
  refine ⟨hsan, ?_, ?_⟩
  · simp [ingest_endpoint, ingest_repository, hsan]
  · have hdb : (ingest_endpoint (.ok texts) true st url name).2.db =
        appendDocs (getOrCreate (deleteCollection st.db []) []) []
          (texts.map (tagRepoDoc url [])) := by
      simp [ingest_endpoint, ingest_repository, hsan]
    rw [hdb, lookupA_rebuild]

/-- Witness for C9 on the repo name `"!!"`. -/
theorem C9_witness :
    sanitize "!!".toList = [] ∧
    (ingest_endpoint (.ok ["t".toList]) true ⟨[], [], []⟩ "u".toList "!!".toList).1 =
      .success [] ∧
    lookupA (ingest_endpoint (.ok ["t".toList]) true ⟨[], [], []⟩ "u".toList "!!".toList).2.db [] =
      some (["t".toList].map (tagRepoDoc "u".toList [])) :=
  C9_empty_context_id_proceeds "!!".toList (by decide) ["t".toList]
    ⟨[], [], []⟩ "u".toList
